import Mathlib

/-!
# Verification of the ETCI2021 dataset loader (torchgeo/datasets/etci2021.py)

A shallow embedding of the ETCI2021 `VisionDataset` subclass and its
`ETCI2021DataModule` wrapper.  The filesystem is modelled as an abstract
structure providing `glob.glob` results and `os.path.exists` answers; image
decoding (`PIL.Image.open` + `convert`) is modelled as abstract decode
functions supplied as parameters.  Pixel values are natural numbers (PNG
bytes); tensors are nested lists; floating-point arithmetic in the data
module is modelled over exact rationals.
-/

namespace ETCI2021

/-- Model of the pieces of the OS the dataset touches: `glob.glob` (returning
matches of a pattern in unspecified order) and `os.path.exists`. -/
structure FS where
  glob : String → List String
  pathExists : String → Bool

/-- `os.path.join` for the relative two-component joins used in the source. -/
def osJoin (a b : String) : String := a ++ "/" ++ b

/-- One entry of the `ETCI2021.metadata` class dictionary. -/
structure SplitMetadata where
  filename : String
  md5 : String
  directory : String
  url : String
deriving DecidableEq, Repr

/-- The `metadata` class attribute: a dictionary keyed by split name.
Lookup of a missing key is `none` (a Python `KeyError`). -/
def metadata (split : String) : Option SplitMetadata :=
  if split = "train" then
    some ⟨"train.zip", "1e95792fe0f6e3c9000abdeab2a8ab0f", "train",
      "https://drive.google.com/file/d/14HqNW5uWLS92n7KrxKgDwUTsSEST6LCr"⟩
  else if split = "val" then
    some ⟨"val_with_ref_labels.zip", "fd18cecb318efc69f8319f90c3771bdf", "test",
      "https://drive.google.com/file/d/19sriKPHCZLfJn_Jmk3Z_0b3VaCBVRVyn"⟩
  else if split = "test" then
    some ⟨"test_without_ref_labels.zip", "da9fa69e1498bd49d5c766338c6dac3d", "test_internal",
      "https://drive.google.com/file/d/1rpMVluASnSHBfm2FhpPDio0GyCPOqg7E"⟩
  else none

/-- Python `sorted` on a list of strings: lexicographic ascending order.
Strings are totally ordered, so any sorting algorithm yields the same
output; we use insertion sort. -/
def sortedStr (l : List String) : List String := l.insertionSort (· ≤ ·)

/-- One record appended by `_load_files`: the Python dict with keys
`vv`, `vh`, `water_mask`, and (for non-test splits only) `flood_mask`. -/
structure FileRecord where
  vv : String
  vh : String
  water_mask : String
  flood_mask : Option String
deriving DecidableEq, Repr, Inhabited

/-- Python `zip` over three lists: truncates to the shortest. -/
def zip3 {α β γ : Type} : List α → List β → List γ → List (α × β × γ)
  | a :: as, b :: bs, c :: cs => (a, b, c) :: zip3 as bs cs
  | _, _, _ => []

/-- Python `zip` over four lists: truncates to the shortest. -/
def zip4 {α β γ δ : Type} : List α → List β → List γ → List δ → List (α × β × γ × δ)
  | a :: as, b :: bs, c :: cs, d :: ds => (a, b, c, d) :: zip4 as bs cs ds
  | _, _, _, _ => []

/-- The body of the `for folder in folders` loop of `_load_files`: glob and
sort the per-channel PNG lists of one `tiles` folder and zip them into
records.  For non-test splits the zip is `(vv, vh, flood, water)`;
for the test split it is `(vv, vh, water)`. -/
def loadFilesFolder (fs : FS) (split folder : String) : List FileRecord :=
  let vvs := sortedStr (fs.glob (osJoin (osJoin folder "vv") "*.png"))
  let vhs := sortedStr (fs.glob (osJoin (osJoin folder "vh") "*.png"))
  let water_masks := sortedStr (fs.glob (osJoin (osJoin folder "water_body_label") "*.png"))
  if split ≠ "test" then
    let flood_masks := sortedStr (fs.glob (osJoin (osJoin folder "flood_label") "*.png"))
    (zip4 vvs vhs flood_masks water_masks).map
      (fun t => ⟨t.1, t.2.1, t.2.2.2, some t.2.2.1⟩)
  else
    (zip3 vvs vhs water_masks).map (fun t => ⟨t.1, t.2.1, t.2.2, none⟩)

/-- `ETCI2021._load_files`: glob the split directory for folders, sort them,
append `/tiles`, and concatenate each folder's records in order.
(`__init__` asserts the split is valid before this runs; an invalid split
would be a `KeyError`, modelled as the empty list.) -/
def load_files (fs : FS) (root split : String) : List FileRecord :=
  match metadata split with
  | none => []
  | some md =>
    let folders := sortedStr (fs.glob (osJoin (osJoin root md.directory) "*"))
    let folders := folders.map (fun folder => osJoin folder "tiles")
    folders.flatMap (loadFilesFolder fs split)

/-! ## Sorting lemmas -/

lemma sortedStr_perm (l : List String) : (sortedStr l).Perm l :=
  List.perm_insertionSort _ l

lemma sortedStr_sorted (l : List String) : List.Sorted (· ≤ ·) (sortedStr l) :=
  List.sorted_insertionSort _ l

/-- Two lists with the same multiset of strings sort to the same list. -/
lemma sortedStr_congr_perm {l₁ l₂ : List String} (h : l₁.Perm l₂) :
    sortedStr l₁ = sortedStr l₂ :=
  List.eq_of_perm_of_sorted
    ((sortedStr_perm l₁).trans (h.trans (sortedStr_perm l₂).symm))
    (sortedStr_sorted l₁) (sortedStr_sorted l₂)

lemma sortedStr_length (l : List String) : (sortedStr l).length = l.length :=
  (sortedStr_perm l).length_eq

lemma loadFilesFolder_congr_perm {fs₁ fs₂ : FS} (split folder : String)
    (h : ∀ p, (fs₁.glob p).Perm (fs₂.glob p)) :
    loadFilesFolder fs₁ split folder = loadFilesFolder fs₂ split folder := by
  unfold loadFilesFolder
  rw [sortedStr_congr_perm (h (osJoin (osJoin folder "vv") "*.png")),
    sortedStr_congr_perm (h (osJoin (osJoin folder "vh") "*.png")),
    sortedStr_congr_perm (h (osJoin (osJoin folder "water_body_label") "*.png")),
    sortedStr_congr_perm (h (osJoin (osJoin folder "flood_label") "*.png"))]

/-- **C1.** The record list built by `_load_files` is fully determined by the
sorted path names: if two filesystems return the same path sets from every
glob (in possibly different orders), `_load_files` returns identical ordered
record lists, because every glob result is sorted before folders are
traversed and before channel lists are zipped index by index. -/
theorem load_files_determined_by_sorted_names (fs₁ fs₂ : FS) (root split : String)
    (h : ∀ p, (fs₁.glob p).Perm (fs₂.glob p)) :
    load_files fs₁ root split = load_files fs₂ root split := by
  unfold load_files
  cases hmd : metadata split with
  | none => rfl
  | some md =>
    simp only
    rw [sortedStr_congr_perm (h (osJoin (osJoin root md.directory) "*"))]
    have hfold : loadFilesFolder fs₁ split = loadFilesFolder fs₂ split :=
      funext (fun folder => loadFilesFolder_congr_perm split folder h)
    rw [hfold]

/-- Concrete filesystems whose globs agree as sets but not as sequences. -/
def fsA : FS := ⟨fun _ => ["b.png", "a.png"], fun _ => true⟩

/-- The same path sets as `fsA`, already in sorted order. -/
def fsB : FS := ⟨fun _ => ["a.png", "b.png"], fun _ => true⟩

theorem load_files_determined_by_sorted_names_witness :
    load_files fsA "root" "train" = load_files fsB "root" "train" :=
  load_files_determined_by_sorted_names fsA fsB "root" "train"
    (fun _ => List.Perm.swap "a.png" "b.png" [])

/-! ## Zip lemmas -/

lemma zip3_length {α β γ : Type} :
    ∀ (a : List α) (b : List β) (c : List γ),
      (zip3 a b c).length = min a.length (min b.length c.length)
  | [], _, _ => by cases ‹List β› <;> cases ‹List γ› <;> simp [zip3]
  | _ :: _, [], _ => by simp [zip3]
  | _ :: _, _ :: _, [] => by simp [zip3]
  | _ :: as, _ :: bs, _ :: cs => by
    simp [zip3, zip3_length as bs cs, Nat.succ_min_succ]

lemma zip4_length {α β γ δ : Type} :
    ∀ (a : List α) (b : List β) (c : List γ) (d : List δ),
      (zip4 a b c d).length = min a.length (min b.length (min c.length d.length))
  | [], _, _, _ => by cases ‹List β› <;> cases ‹List γ› <;> cases ‹List δ› <;> simp [zip4]
  | _ :: _, [], _, _ => by simp [zip4]
  | _ :: _, _ :: _, [], _ => by simp [zip4]
  | _ :: _, _ :: _, _ :: _, [] => by simp [zip4]
  | _ :: as, _ :: bs, _ :: cs, _ :: ds => by
    simp [zip4, zip4_length as bs cs ds, Nat.succ_min_succ]

lemma zip3_proj {α β γ : Type} :
    ∀ (a : List α) (b : List β) (c : List γ),
      a.length = b.length → b.length = c.length →
      (zip3 a b c).map (fun t => t.1) = a
      ∧ (zip3 a b c).map (fun t => t.2.1) = b
      ∧ (zip3 a b c).map (fun t => t.2.2) = c
  | [], [], [], _, _ => by simp [zip3]
  | _ :: as, _ :: bs, _ :: cs, hab, hbc => by
    have ih := zip3_proj as bs cs (by simpa using hab) (by simpa using hbc)
    simpa [zip3] using ih

lemma zip4_proj {α β γ δ : Type} :
    ∀ (a : List α) (b : List β) (c : List γ) (d : List δ),
      a.length = b.length → b.length = c.length → c.length = d.length →
      (zip4 a b c d).map (fun t => t.1) = a
      ∧ (zip4 a b c d).map (fun t => t.2.1) = b
      ∧ (zip4 a b c d).map (fun t => t.2.2.1) = c
      ∧ (zip4 a b c d).map (fun t => t.2.2.2) = d
  | [], [], [], [], _, _, _ => by simp [zip4]
  | _ :: as, _ :: bs, _ :: cs, _ :: ds, hab, hbc, hcd => by
    have ih := zip4_proj as bs cs ds (by simpa using hab) (by simpa using hbc)
      (by simpa using hcd)
    simpa [zip4] using ih

/-- **C2.** A folder whose channel directories each hold `N` PNG files
contributes exactly `N` matched records, and no file is dropped: projecting
the records onto each channel returns exactly that channel's sorted file
list (for non-test splits this includes the flood channel). -/
theorem folder_matched_tuples (fs : FS) (split folder : String) (N : Nat)
    (hvv : (fs.glob (osJoin (osJoin folder "vv") "*.png")).length = N)
    (hvh : (fs.glob (osJoin (osJoin folder "vh") "*.png")).length = N)
    (hwa : (fs.glob (osJoin (osJoin folder "water_body_label") "*.png")).length = N)
    (hfl : split ≠ "test" →
      (fs.glob (osJoin (osJoin folder "flood_label") "*.png")).length = N) :
    (loadFilesFolder fs split folder).length = N
    ∧ (loadFilesFolder fs split folder).map FileRecord.vv
        = sortedStr (fs.glob (osJoin (osJoin folder "vv") "*.png"))
    ∧ (loadFilesFolder fs split folder).map FileRecord.vh
        = sortedStr (fs.glob (osJoin (osJoin folder "vh") "*.png"))
    ∧ (loadFilesFolder fs split folder).map FileRecord.water_mask
        = sortedStr (fs.glob (osJoin (osJoin folder "water_body_label") "*.png"))
    ∧ (split ≠ "test" →
        (loadFilesFolder fs split folder).map FileRecord.flood_mask
          = (sortedStr (fs.glob (osJoin (osJoin folder "flood_label") "*.png"))).map some) := by
  by_cases hsplit : split = "test"
  · subst hsplit
    simp only [loadFilesFolder, if_neg (by decide : ¬("test" ≠ "test"))]
    have hlen := zip3_length (sortedStr (fs.glob (osJoin (osJoin folder "vv") "*.png")))
      (sortedStr (fs.glob (osJoin (osJoin folder "vh") "*.png")))
      (sortedStr (fs.glob (osJoin (osJoin folder "water_body_label") "*.png")))
    have hproj := zip3_proj (sortedStr (fs.glob (osJoin (osJoin folder "vv") "*.png")))
      (sortedStr (fs.glob (osJoin (osJoin folder "vh") "*.png")))
      (sortedStr (fs.glob (osJoin (osJoin folder "water_body_label") "*.png")))
      (by rw [sortedStr_length, sortedStr_length, hvv, hvh])
      (by rw [sortedStr_length, sortedStr_length, hvh, hwa])
    refine ⟨?_, ?_, ?_, ?_, by simp⟩
    · simp [hlen, sortedStr_length, hvv, hvh, hwa]
    · simpa [List.map_map, Function.comp] using hproj.1
    · simpa [List.map_map, Function.comp] using hproj.2.1
    · simpa [List.map_map, Function.comp] using hproj.2.2
  · have hfl := hfl hsplit
    simp only [loadFilesFolder, if_pos hsplit]
    have hlen := zip4_length (sortedStr (fs.glob (osJoin (osJoin folder "vv") "*.png")))
      (sortedStr (fs.glob (osJoin (osJoin folder "vh") "*.png")))
      (sortedStr (fs.glob (osJoin (osJoin folder "flood_label") "*.png")))
      (sortedStr (fs.glob (osJoin (osJoin folder "water_body_label") "*.png")))
    have hproj := zip4_proj (sortedStr (fs.glob (osJoin (osJoin folder "vv") "*.png")))
      (sortedStr (fs.glob (osJoin (osJoin folder "vh") "*.png")))
      (sortedStr (fs.glob (osJoin (osJoin folder "flood_label") "*.png")))
      (sortedStr (fs.glob (osJoin (osJoin folder "water_body_label") "*.png")))
      (by rw [sortedStr_length, sortedStr_length, hvv, hvh])
      (by rw [sortedStr_length, sortedStr_length, hvh, hfl])
      (by rw [sortedStr_length, sortedStr_length, hfl, hwa])
    refine ⟨?_, ?_, ?_, ?_, fun _ => ?_⟩
    · simp [hlen, sortedStr_length, hvv, hvh, hwa, hfl]
    · simpa [List.map_map, Function.comp] using hproj.1
    · simpa [List.map_map, Function.comp] using hproj.2.1
    · simpa [List.map_map, Function.comp] using hproj.2.2.2
    · rw [List.map_map]
      rw [show (FileRecord.flood_mask ∘ fun t : String × String × String × String =>
        FileRecord.mk t.1 t.2.1 t.2.2.2 (some t.2.2.1))
        = (some ∘ fun t : String × String × String × String => t.2.2.1) from rfl]
      rw [← List.map_map]
      rw [hproj.2.2.1]

/-- A filesystem with one folder and one PNG per channel directory. -/
def fsC : FS :=
  ⟨fun p => if p = "root/train/*" then ["root/train/f1"] else [p ++ "/x.png"],
   fun _ => true⟩

theorem folder_matched_tuples_witness :
    (loadFilesFolder fsC "train" "root/train/f1/tiles").length = 1
    ∧ (loadFilesFolder fsC "train" "root/train/f1/tiles").map FileRecord.vv
        = sortedStr (fsC.glob (osJoin (osJoin "root/train/f1/tiles" "vv") "*.png"))
    ∧ (loadFilesFolder fsC "train" "root/train/f1/tiles").map FileRecord.vh
        = sortedStr (fsC.glob (osJoin (osJoin "root/train/f1/tiles" "vh") "*.png"))
    ∧ (loadFilesFolder fsC "train" "root/train/f1/tiles").map FileRecord.water_mask
        = sortedStr (fsC.glob (osJoin (osJoin "root/train/f1/tiles" "water_body_label") "*.png"))
    ∧ ("train" ≠ "test" →
        (loadFilesFolder fsC "train" "root/train/f1/tiles").map FileRecord.flood_mask
          = (sortedStr (fsC.glob (osJoin (osJoin "root/train/f1/tiles" "flood_label") "*.png"))).map some) :=
  folder_matched_tuples fsC "train" "root/train/f1/tiles" 1
    (by decide) (by decide) (by decide) (fun _ => by decide)

/-! ## Sample loading: `_load_image`, `_load_target`, `__getitem__` -/

/-- A pixel of an image after `img.convert("RGB")`: three byte channels. -/
abbrev RGB : Type := Nat × Nat × Nat

/-- The decoded `HxWxC` array `np.array(img.convert("RGB"))` of a PNG:
rows of RGB pixels. -/
structure DecodedRGB where
  pixels : List (List RGB)

/-- A `CxHxW` tensor: a list of channel planes, each a list of rows. -/
abbrev Planes : Type := List (List (List Nat))

/-- `ETCI2021._load_image`: decode the file to an `HxWx3` array and permute
`(2, 0, 1)` to `CxHxW`; the result is the list of the three channel planes.
`decode` stands for `np.array(Image.open(path).convert("RGB"))`. -/
def load_image (decode : String → DecodedRGB) (path : String) : Planes :=
  let a := (decode path).pixels
  [a.map (fun row => row.map (fun px => px.1)),
   a.map (fun row => row.map (fun px => px.2.1)),
   a.map (fun row => row.map (fun px => px.2.2))]

/-- `ETCI2021._load_target`: decode the file with `convert("L")` to an `HxW`
byte array, `torch.clamp(·, min=0, max=1)`, and cast to `torch.long`.
`decodeL` stands for `np.array(Image.open(path).convert("L"))`. -/
def load_target (decodeL : String → List (List Nat)) (path : String) :
    List (List Int) :=
  ((decodeL path).map (fun row => row.map (fun v => min (max v 0) 1))).map
    (fun row => row.map (fun v => Int.ofNat v))

/-- The sample dict returned by `__getitem__`: the concatenated image tensor
(a list of channel planes) and the stacked mask tensor (a list of mask
channels). -/
structure Sample where
  image : Planes
  mask : List (List (List Int))
deriving Repr

/-- `ETCI2021.__getitem__` with `transforms=None`: look up the record at
`index`, load `vv` and `vh` with `_load_image` and the masks with
`_load_target`, stack the masks (water first, then flood for non-test
splits), and concatenate `vv` before `vh` along the channel dimension.
An out-of-range index or a missing `flood_mask` key is `none` (a Python
`IndexError`/`KeyError`). -/
def getitem (decode : String → DecodedRGB) (decodeL : String → List (List Nat))
    (files : List FileRecord) (split : String) (index : Nat) : Option Sample :=
  (files[index]?).bind (fun rec =>
    let vv := load_image decode rec.vv
    let vh := load_image decode rec.vh
    let water_mask := load_target decodeL rec.water_mask
    if split ≠ "test" then
      rec.flood_mask.map (fun fm =>
        let flood_mask := load_target decodeL fm
        { image := vv ++ vh, mask := [water_mask, flood_mask] })
    else
      some { image := vv ++ vh, mask := [water_mask] })

/-- Value of a `CxHxW` tensor at `(c, h, w)` (0 outside the bounds). -/
def planeVal (planes : Planes) (c h w : Nat) : Nat :=
  ((planes.getD c []).getD h []).getD w 0

/-- Pixel of a decoded `HxWxC` array at `(h, w)` (black outside the bounds). -/
def pixelAt (d : DecodedRGB) (h w : Nat) : RGB :=
  (d.pixels.getD h []).getD w ((0, 0, 0) : RGB)

/-- Channel `c` of an RGB pixel. -/
def rgbChannel (c : Nat) (px : RGB) : Nat :=
  match c with
  | 0 => px.1
  | 1 => px.2.1
  | 2 => px.2.2
  | _ => 0

lemma getD_map_proj (f : RGB → Nat) (hf : f ((0, 0, 0) : RGB) = 0)
    (a : List (List RGB)) (h w : Nat) :
    ((a.map (fun row => row.map f)).getD h []).getD w 0
      = f ((a.getD h []).getD w ((0, 0, 0) : RGB)) := by
  have h0 : f 0 = 0 := by simpa using hf
  simp only [List.getD, List.getElem?_map]
  cases ha : a[h]? with
  | none => simp [ha, h0]
  | some row =>
    cases hr : row[w]? with
    | none => simp [ha, hr, h0]
    | some px => simp [ha, hr]

lemma load_image_length (decode : String → DecodedRGB) (path : String) :
    (load_image decode path).length = 3 := rfl

/-- `_load_image` permutes `HxWxC` to `CxHxW`: the value at `(c, h, w)` of
the loaded tensor is channel `c` of the decoded pixel at `(h, w)`. -/
lemma planeVal_load_image (decode : String → DecodedRGB) (path : String)
    (c h w : Nat) (hc : c < 3) :
    planeVal (load_image decode path) c h w
      = rgbChannel c (pixelAt (decode path) h w) := by
  interval_cases c
  · exact getD_map_proj (fun px => px.1) rfl (decode path).pixels h w
  · exact getD_map_proj (fun px => px.2.1) rfl (decode path).pixels h w
  · exact getD_map_proj (fun px => px.2.2) rfl (decode path).pixels h w

/-- **C3.** With no transforms, `__getitem__` returns an image of exactly six
channel planes in `CxHxW` layout: the three planes of the decoded VV image
followed by the three planes of the decoded VH image, each plane being the
`(2, 0, 1)` permutation of the decoded `HxWxC` array. -/
theorem getitem_image_channel_order (decode : String → DecodedRGB)
    (decodeL : String → List (List Nat)) (files : List FileRecord)
    (split : String) (index : Nat) (rec : FileRecord)
    (hrec : files[index]? = some rec)
    (hfl : split ≠ "test" → rec.flood_mask.isSome = true) :
    ∃ s, getitem decode decodeL files split index = some s
    ∧ s.image = load_image decode rec.vv ++ load_image decode rec.vh
    ∧ s.image.length = 6
    ∧ (∀ c h w, c < 3 →
        planeVal s.image c h w = rgbChannel c (pixelAt (decode rec.vv) h w))
    ∧ (∀ c h w, c < 3 →
        planeVal s.image (3 + c) h w = rgbChannel c (pixelAt (decode rec.vh) h w)) := by
  have key : ∀ s : Sample, s.image = load_image decode rec.vv ++ load_image decode rec.vh →
      s.image.length = 6
      ∧ (∀ c h w, c < 3 →
          planeVal s.image c h w = rgbChannel c (pixelAt (decode rec.vv) h w))
      ∧ (∀ c h w, c < 3 →
          planeVal s.image (3 + c) h w = rgbChannel c (pixelAt (decode rec.vh) h w)) := by
    intro s hs
    refine ⟨by simp [hs, load_image], ?_, ?_⟩
    · intro c h w hc
      have : planeVal s.image c h w = planeVal (load_image decode rec.vv) c h w := by
        unfold planeVal
        rw [hs, List.getD_append]
        rw [load_image_length]; exact hc
      rw [this, planeVal_load_image decode rec.vv c h w hc]
    · intro c h w hc
      have : planeVal s.image (3 + c) h w = planeVal (load_image decode rec.vh) c h w := by
        unfold planeVal
        rw [hs, List.getD_append_right]
        · rw [load_image_length]
          norm_num
        · rw [load_image_length]; omega
      rw [this, planeVal_load_image decode rec.vh c h w hc]
  by_cases hsplit : split = "test"
  · refine ⟨⟨load_image decode rec.vv ++ load_image decode rec.vh,
      [load_target decodeL rec.water_mask]⟩, ?_, rfl, key _ rfl⟩
    subst hsplit
    simp [getitem, hrec]
  · obtain ⟨fm, hfm⟩ := Option.isSome_iff_exists.mp (hfl hsplit)
    refine ⟨⟨load_image decode rec.vv ++ load_image decode rec.vh,
      [load_target decodeL rec.water_mask, load_target decodeL fm]⟩, ?_, rfl, key _ rfl⟩
    simp [getitem, hrec, if_pos hsplit, hfm]

/-- A decoder producing a single 1x1 RGB image. -/
def decode0 : String → DecodedRGB := fun _ => ⟨[[((1, 2, 3) : RGB)]]⟩

/-- A grayscale decoder producing a single-row mask image. -/
def decodeL0 : String → List (List Nat) := fun _ => [[255]]

/-- A concrete train-split file record. -/
def rec0 : FileRecord := ⟨"vv.png", "vh.png", "wm.png", some "fm.png"⟩

theorem getitem_image_channel_order_witness :
    ∃ s, getitem decode0 decodeL0 [rec0] "train" 0 = some s
    ∧ s.image = load_image decode0 rec0.vv ++ load_image decode0 rec0.vh
    ∧ s.image.length = 6
    ∧ (∀ c h w, c < 3 →
        planeVal s.image c h w = rgbChannel c (pixelAt (decode0 rec0.vv) h w))
    ∧ (∀ c h w, c < 3 →
        planeVal s.image (3 + c) h w = rgbChannel c (pixelAt (decode0 rec0.vh) h w)) :=
  getitem_image_channel_order decode0 decodeL0 [rec0] "train" 0 rec0 rfl (fun _ => rfl)

/-! ## Record arity and mask channels -/

/-- Every record `_load_files` builds carries a flood-mask path exactly when
the split is not the test split. -/
lemma load_files_flood_arity (fs : FS) (root split : String) (rec : FileRecord)
    (h : rec ∈ load_files fs root split) :
    (split ≠ "test" → rec.flood_mask.isSome = true)
    ∧ (split = "test" → rec.flood_mask = none) := by
  unfold load_files at h
  cases hmd : metadata split with
  | none => rw [hmd] at h; simp at h
  | some md =>
    rw [hmd] at h
    simp only [List.mem_flatMap] at h
    obtain ⟨folder, _, hmem⟩ := h
    unfold loadFilesFolder at hmem
    by_cases hsplit : split = "test"
    · rw [if_neg (by simp [hsplit])] at hmem
      obtain ⟨t, _, rfl⟩ := List.mem_map.mp hmem
      exact ⟨fun hne => absurd hsplit hne, fun _ => rfl⟩
    · rw [if_pos hsplit] at hmem
      obtain ⟨t, _, rfl⟩ := List.mem_map.mp hmem
      exact ⟨fun _ => rfl, fun heq => absurd heq hsplit⟩

/-- **C7.** Records of `_load_files` are fixed-arity: for train/val splits a
record holds four paths (`flood_mask` present) and `__getitem__` returns a
two-channel mask with the water mask stacked before the flood mask; for the
test split a record holds three paths (no `flood_mask`) and `__getitem__`
returns a one-channel mask. -/
theorem record_arity_and_mask_channels (fs : FS) (decode : String → DecodedRGB)
    (decodeL : String → List (List Nat)) (root split : String) (index : Nat)
    (rec : FileRecord) (hrec : (load_files fs root split)[index]? = some rec) :
    (split ≠ "test" → ∃ fm, rec.flood_mask = some fm
      ∧ getitem decode decodeL (load_files fs root split) split index
          = some ⟨load_image decode rec.vv ++ load_image decode rec.vh,
              [load_target decodeL rec.water_mask, load_target decodeL fm]⟩)
    ∧ (split = "test" → rec.flood_mask = none
      ∧ getitem decode decodeL (load_files fs root split) split index
          = some ⟨load_image decode rec.vv ++ load_image decode rec.vh,
              [load_target decodeL rec.water_mask]⟩) := by
  have hmem : rec ∈ load_files fs root split := by
    have := List.getElem?_eq_some_iff.mp hrec
    obtain ⟨hlt, hget⟩ := this
    exact hget ▸ List.getElem_mem hlt
  have harity := load_files_flood_arity fs root split rec hmem
  constructor
  · intro hsplit
    obtain ⟨fm, hfm⟩ := Option.isSome_iff_exists.mp (harity.1 hsplit)
    refine ⟨fm, hfm, ?_⟩
    simp [getitem, hrec, if_pos hsplit, hfm]
  · intro hsplit
    refine ⟨harity.2 hsplit, ?_⟩
    subst hsplit
    simp [getitem, hrec]

/-- A filesystem with one folder per split directory and one PNG per channel
directory, used to exercise the record-arity theorem. -/
def fsD : FS :=
  ⟨fun p => if p = "root/train/*" then ["root/train/f1"]
    else if p = "root/test_internal/*" then ["root/test_internal/g1"]
    else [p ++ "/x.png"],
   fun _ => true⟩

theorem record_arity_and_mask_channels_witness :
    (("train" : String) ≠ "test" → ∃ fm,
        (FileRecord.flood_mask ((load_files fsD "root" "train").headI)) = some fm
      ∧ getitem decode0 decodeL0 (load_files fsD "root" "train") "train" 0
          = some ⟨load_image decode0 ((load_files fsD "root" "train").headI).vv
                ++ load_image decode0 ((load_files fsD "root" "train").headI).vh,
              [load_target decodeL0 ((load_files fsD "root" "train").headI).water_mask,
               load_target decodeL0 fm]⟩)
    ∧ (("train" : String) = "test" →
        (FileRecord.flood_mask ((load_files fsD "root" "train").headI)) = none
      ∧ getitem decode0 decodeL0 (load_files fsD "root" "train") "train" 0
          = some ⟨load_image decode0 ((load_files fsD "root" "train").headI).vv
                ++ load_image decode0 ((load_files fsD "root" "train").headI).vh,
              [load_target decodeL0 ((load_files fsD "root" "train").headI).water_mask]⟩) :=
  record_arity_and_mask_channels fsD decode0 decodeL0 "root" "train" 0
    ((load_files fsD "root" "train").headI) (by decide)

/-! ## Binary mask values -/

/-- **C8.** Every entry of the tensor `_load_target` returns is the integer
0 or 1, whatever byte values the decoded single-channel image holds:
`torch.clamp(·, min=0, max=1)` collapses every nonzero value (such as the
255 used by the PNG masks) to 1 before the cast to `torch.long`. -/
theorem load_target_values_binary (decodeL : String → List (List Nat))
    (path : String) :
    ∀ row ∈ load_target decodeL path, ∀ v ∈ row, v = 0 ∨ v = 1 := by
  intro row hrow v hv
  unfold load_target at hrow
  obtain ⟨row1, hrow1, rfl⟩ := List.mem_map.mp hrow
  obtain ⟨row0, hrow0, rfl⟩ := List.mem_map.mp hrow1
  rw [List.map_map] at hv
  obtain ⟨u, hu, rfl⟩ := List.mem_map.mp hv
  have hle : min (max u 0) 1 ≤ 1 := min_le_right _ _
  rcases Nat.le_one_iff_eq_zero_or_eq_one.mp hle with h1 | h1
  · exact Or.inl (by simp only [Function.comp_apply, h1]; rfl)
  · exact Or.inr (by simp only [Function.comp_apply, h1]; rfl)

/-- A grayscale decoder with byte values 0, 255 and 7. -/
def decodeL1 : String → List (List Nat) := fun _ => [[0, 255, 7]]

theorem load_target_values_binary_witness : (1 : Int) = 0 ∨ (1 : Int) = 1 :=
  load_target_values_binary decodeL1 "mask.png" [0, 1, 1] (by decide) 1 (by decide)

/-! ## `__init__`: split assertion and dataset-not-found error -/

/-- The exceptions `__init__` can raise. -/
inductive InitError : Type
  | assertionError
  | runtimeError
deriving DecidableEq, Repr

/-- Observable side effects of `__init__`, in order of occurrence. -/
inductive Action : Type
  | checkIntegrity
  | downloadArchive
deriving DecidableEq, Repr

/-- The constructed dataset object: the fields `__init__` stores. -/
structure Dataset where
  root : String
  split : String
  files : List FileRecord
deriving Repr

/-- `ETCI2021._check_integrity`: the expected split directory
`root/metadata[split]["directory"]` exists on disk. -/
def check_integrity (fs : FS) (root split : String) : Bool :=
  match metadata split with
  | some md => fs.pathExists (osJoin root md.directory)
  | none => false

/-- `ETCI2021.__init__`: assert the split is a metadata key, optionally run
`_download` (which first re-checks integrity and otherwise fetches the
archive — the effect of `download_and_extract_archive`, external code, is
abstracted as `runDownload`), then raise `RuntimeError` unless
`_check_integrity` holds, and finally store `_load_files`.  The second
component records the filesystem actions taken, in order. -/
def ETCI2021_init (runDownload : FS → FS) (fs : FS) (root split : String)
    (download : Bool) : Except InitError Dataset × List Action :=
  if (metadata split).isSome then
    let afterDownload :=
      if download then
        if check_integrity fs root split then (fs, [Action.checkIntegrity])
        else (runDownload fs, [Action.checkIntegrity, Action.downloadArchive])
      else (fs, [])
    let fs2 := afterDownload.1
    if check_integrity fs2 root split then
      (Except.ok ⟨root, split, load_files fs2 root split⟩,
        afterDownload.2 ++ [Action.checkIntegrity])
    else
      (Except.error InitError.runtimeError,
        afterDownload.2 ++ [Action.checkIntegrity])
  else (Except.error InitError.assertionError, [])

/-- **C5.** With `download=False` and a valid split, `__init__` raises
`RuntimeError` ("dataset not found") exactly when the expected split
directory `root/metadata[split]["directory"]` does not exist; when it
exists, construction succeeds and stores the `_load_files` record list. -/
theorem init_dataset_not_found_iff (runDownload : FS → FS) (fs : FS)
    (root split : String) (md : SplitMetadata) (hmd : metadata split = some md) :
    ((ETCI2021_init runDownload fs root split false).1
        = Except.error InitError.runtimeError
      ↔ fs.pathExists (osJoin root md.directory) = false)
    ∧ (fs.pathExists (osJoin root md.directory) = true →
        ETCI2021_init runDownload fs root split false
          = (Except.ok ⟨root, split, load_files fs root split⟩,
             [Action.checkIntegrity])) := by
  have hck : check_integrity fs root split = fs.pathExists (osJoin root md.directory) := by
    unfold check_integrity
    rw [hmd]
  unfold ETCI2021_init
  rw [if_pos (by rw [hmd]; rfl)]
  simp only [if_neg (Bool.false_ne_true), hck]
  cases hpe : fs.pathExists (osJoin root md.directory) with
  | false => simp
  | true => simp

/-- A filesystem on which the expected split directory is absent. -/
def fsEmpty : FS := ⟨fun _ => [], fun _ => false⟩

theorem init_dataset_not_found_iff_witness :
    (((ETCI2021_init id fsEmpty "data" "train" false).1
        = Except.error InitError.runtimeError
      ↔ fsEmpty.pathExists (osJoin "data" "train") = false)
    ∧ (fsEmpty.pathExists (osJoin "data" "train") = true →
        ETCI2021_init id fsEmpty "data" "train" false
          = (Except.ok ⟨"data", "train", load_files fsEmpty "data" "train"⟩,
             [Action.checkIntegrity]))) :=
  init_dataset_not_found_iff id fsEmpty "data" "train"
    ⟨"train.zip", "1e95792fe0f6e3c9000abdeab2a8ab0f", "train",
      "https://drive.google.com/file/d/14HqNW5uWLS92n7KrxKgDwUTsSEST6LCr"⟩
    (by decide)

/-- **C6.** `__init__` asserts the split name before anything else: for a
split outside `{"train", "val", "test"}` it raises `AssertionError` with no
download attempted and no filesystem check performed (the action trace is
empty), for any filesystem and any value of `download`; for the three valid
split names the assertion passes, i.e. the result is never
`AssertionError`. -/
theorem init_split_assertion (runDownload : FS → FS) (fs : FS)
    (root split : String) (download : Bool) :
    (split ≠ "train" ∧ split ≠ "val" ∧ split ≠ "test" →
      ETCI2021_init runDownload fs root split download
        = (Except.error InitError.assertionError, []))
    ∧ (split = "train" ∨ split = "val" ∨ split = "test" →
      (ETCI2021_init runDownload fs root split download).1
        ≠ Except.error InitError.assertionError) := by
  constructor
  · rintro ⟨h1, h2, h3⟩
    have hmd : metadata split = none := by
      unfold metadata
      rw [if_neg h1, if_neg h2, if_neg h3]
    unfold ETCI2021_init
    rw [hmd]
    rfl
  · intro hvalid
    have hmd : (metadata split).isSome = true := by
      rcases hvalid with h | h | h <;> subst h <;> rfl
    have hcases : (ETCI2021_init runDownload fs root split download).1
        = Except.error InitError.runtimeError
        ∨ ∃ d, (ETCI2021_init runDownload fs root split download).1
            = Except.ok d := by
      unfold ETCI2021_init
      rw [if_pos hmd]
      dsimp only
      repeat' split
      all_goals first | (left; rfl) | (right; exact ⟨_, rfl⟩)
    rcases hcases with h | ⟨d, h⟩ <;> rw [h] <;> simp

theorem init_split_assertion_witness :
    (ETCI2021_init id fsEmpty "data" "bogus" true
        = (Except.error InitError.assertionError, []))
    ∧ ((ETCI2021_init id fsEmpty "data" "train" false).1
        ≠ Except.error InitError.assertionError) :=
  ⟨(init_split_assertion id fsEmpty "data" "bogus" true).1
      (by refine ⟨?_, ?_, ?_⟩ <;> decide),
   (init_split_assertion id fsEmpty "data" "train" false).2 (Or.inl rfl)⟩

/-! ## `ETCI2021DataModule`: setup split and seed determinism -/

/-- A `torch.Generator`: its only observable content is its state. -/
structure TorchGen where
  state : Nat
deriving DecidableEq, Repr

/-- `Generator().manual_seed(seed)` sets the state to the seed, discarding
whatever state the freshly constructed generator held. -/
def manual_seed (_fresh : TorchGen) (seed : Nat) : TorchGen :=
  { state := seed }

/-- Python `int(0.8 * size_train_val)`, modelled in exact rational
arithmetic: truncation (equal to the floor, as the value is nonnegative)
of `0.8 * n`. -/
def train_size (n : Nat) : Nat := ⌊(0.8 : ℚ) * (n : ℚ)⌋₊

/-- The partition state `ETCI2021DataModule.setup` produces: the index sets
`random_split` assigns to the train and validation datasets, and the split
name of the dataset the test dataloader wraps. -/
structure DataModuleState where
  train_indices : List Nat
  val_indices : List Nat
  test_split : String
deriving DecidableEq, Repr

/-- `ETCI2021DataModule.setup` for a train dataset of length `n`:
`torch.utils.data.random_split` (external library code) draws a permutation
of `0..n-1` from the generator — abstracted as a deterministic function
`randperm` of the generator state — and slices off the first
`int(0.8 * n)` indices for the train partition and the next `n - int(0.8 * n)`
for the validation partition.  The generator passed in is
`Generator().manual_seed(self.seed)`; the fresh generator's pre-seed state
is `ambient`.  The test dataset is `ETCI2021(root, split="val")`,
untouched by the partition. -/
def DataModule_setup (randperm : Nat → Nat → List Nat) (ambient seed n : Nat) :
    DataModuleState :=
  let size_train := train_size n
  let size_val := n - size_train
  let perm := randperm (manual_seed ⟨ambient⟩ seed).state n
  { train_indices := perm.take size_train,
    val_indices := (perm.drop size_train).take size_val,
    test_split := "val" }

lemma train_size_eq (n : Nat) : train_size n = 4 * n / 5 := by
  unfold train_size
  have h : (0.8 : ℚ) * (n : ℚ) = ((4 * n : ℕ) : ℚ) / ((5 : ℕ) : ℚ) := by
    push_cast
    ring
  rw [h, Nat.floor_div_eq_div]

lemma train_size_le (n : Nat) : train_size n ≤ n := by
  rw [train_size_eq]
  omega

/-- **C4.** `setup` partitions the `split="train"` dataset of size `n` into a
train part of size `int(0.8 * n)` — the floor of `0.8 * n`, equal to
`4 * n / 5` — and a validation part of size `n - int(0.8 * n)`; the two
sizes always sum to `n`, and the test dataloader's dataset is the separate
`split="val"` dataset, which is not partitioned. -/
theorem setup_split_sizes (randperm : Nat → Nat → List Nat)
    (ambient seed n : Nat)
    (hperm : (randperm (manual_seed ⟨ambient⟩ seed).state n).length = n) :
    (DataModule_setup randperm ambient seed n).train_indices.length = train_size n
    ∧ train_size n = 4 * n / 5
    ∧ (DataModule_setup randperm ambient seed n).val_indices.length
        = n - train_size n
    ∧ (DataModule_setup randperm ambient seed n).train_indices.length
        + (DataModule_setup randperm ambient seed n).val_indices.length = n
    ∧ (DataModule_setup randperm ambient seed n).test_split = "val" := by
  have htr : (DataModule_setup randperm ambient seed n).train_indices.length
      = train_size n := by
    simp only [DataModule_setup, List.length_take, hperm]
    exact min_eq_left (train_size_le n)
  have hva : (DataModule_setup randperm ambient seed n).val_indices.length
      = n - train_size n := by
    simp only [DataModule_setup, List.length_take, List.length_drop, hperm]
    exact min_self _
  refine ⟨htr, train_size_eq n, hva, ?_, rfl⟩
  rw [htr, hva]
  have := train_size_le n
  omega

theorem setup_split_sizes_witness :
    (DataModule_setup (fun _ n => List.range n) 0 0 7).train_indices.length
        = train_size 7
    ∧ train_size 7 = 4 * 7 / 5
    ∧ (DataModule_setup (fun _ n => List.range n) 0 0 7).val_indices.length
        = 7 - train_size 7
    ∧ (DataModule_setup (fun _ n => List.range n) 0 0 7).train_indices.length
        + (DataModule_setup (fun _ n => List.range n) 0 0 7).val_indices.length = 7
    ∧ (DataModule_setup (fun _ n => List.range n) 0 0 7).test_split = "val" :=
  setup_split_sizes (fun _ n => List.range n) 0 0 7 (List.length_range 7)

/-- **C10.** The train/validation partition is deterministic in the seed:
whatever state the freshly constructed `Generator()` holds before
`manual_seed(self.seed)` overwrites it, `setup` hands `random_split` a
generator whose state is exactly the seed, so two runs of `setup` over the
same dataset with the same seed produce identical train and validation
index sets. -/
theorem setup_deterministic_in_seed (randperm : Nat → Nat → List Nat)
    (ambient₁ ambient₂ seed n : Nat) :
    DataModule_setup randperm ambient₁ seed n
      = DataModule_setup randperm ambient₂ seed n := rfl

/-! ## `ETCI2021DataModule.preprocess` -/

/-- A channel plane with exact rational entries (the floating-point tensor
arithmetic of `preprocess` is modelled over `ℚ`). -/
abbrev QPlane : Type := List (List ℚ)

/-- A raw sample entering `preprocess`: image and mask channel stacks. -/
structure QSample where
  image : List QPlane
  mask : List QPlane

/-- A preprocessed sample: a float image and a long (integer) label mask. -/
structure ProcSample where
  image : List QPlane
  mask : List (List Int)

/-- The `band_means` class attribute (seven channel means). -/
def band_means : List ℚ :=
  [0.52253931, 0.52253931, 0.52253931, 0.61221701, 0.61221701, 0.61221701, 0]

/-- The `band_stds` class attribute (seven channel standard deviations). -/
def band_stds : List ℚ :=
  [0.35221376, 0.35221376, 0.35221376, 0.37364622, 0.37364622, 0.37364622, 1]

/-- `torchvision.transforms.Normalize(band_means, band_stds)`: channel-wise
`(x - mean) / std`. -/
def normalize (image : List QPlane) : List QPlane :=
  (zip3 image band_means band_stds).map
    (fun t => t.1.map (fun row => row.map (fun x => (x - t.2.1) / t.2.2)))

/-- `ETCI2021DataModule.preprocess`: take `mask[0]` as the water mask and
`mask[1]` as the flood mask (a Python `IndexError`, modelled as `none`, if
the mask has fewer than two channels), binarize the flood mask with
`(flood_mask > 0).long()`, concatenate the water mask to the image as an
extra channel, divide by 255, normalize, and make the binarized flood mask
the sample's label. -/
def preprocess (sample : QSample) : Option ProcSample :=
  (sample.mask[0]?).bind (fun water_mask =>
    (sample.mask[1]?).map (fun flood_mask =>
      let floodBin := flood_mask.map
        (fun row => row.map (fun x => if 0 < x then (1 : Int) else 0))
      let image := (sample.image ++ [water_mask]).map
        (fun p => p.map (fun row => row.map (fun x => x / 255)))
      { image := normalize image, mask := floodBin }))

/-- The transformation `preprocess` applies to the channel with mean `m` and
standard deviation `s`: divide by 255, then normalize. -/
def chanT (m s : ℚ) (p : QPlane) : QPlane :=
  p.map (fun row => row.map (fun x => (x / 255 - m) / s))

/-- **C9.** On a sample with a 6-channel image and at least 2 mask channels,
`preprocess` yields a 7-channel image — the six image channels normalized
with the per-channel means and standard deviations, followed by the water
mask `mask[0]` as an extra input channel, divided by 255 and normalized with
mean 0 and standard deviation 1 (i.e. merely divided by 255) — and a label
equal to the flood channel `mask[1]` binarized to 0/1 long values.  On a
1-channel mask (a raw test-split sample) `preprocess` fails. -/
theorem preprocess_seven_channels (p₀ p₁ p₂ p₃ p₄ p₅ m₀ m₁ : QPlane)
    (rest : List QPlane) (sample : QSample)
    (hs : sample = ⟨[p₀, p₁, p₂, p₃, p₄, p₅], m₀ :: m₁ :: rest⟩) :
    (∃ out, preprocess sample = some out
      ∧ out.image.length = 7
      ∧ out.image =
          [chanT 0.52253931 0.35221376 p₀, chanT 0.52253931 0.35221376 p₁,
           chanT 0.52253931 0.35221376 p₂, chanT 0.61221701 0.37364622 p₃,
           chanT 0.61221701 0.37364622 p₄, chanT 0.61221701 0.37364622 p₅,
           chanT 0 1 m₀]
      ∧ chanT 0 1 m₀ = m₀.map (fun row => row.map (fun x => x / 255))
      ∧ out.mask = m₁.map (fun row => row.map (fun x => if 0 < x then (1 : Int) else 0)))
    ∧ (∀ s' : QSample, s'.mask.length = 1 → preprocess s' = none) := by
  constructor
  · subst hs
    have hpre : preprocess ⟨[p₀, p₁, p₂, p₃, p₄, p₅], m₀ :: m₁ :: rest⟩
        = some ⟨normalize (([p₀, p₁, p₂, p₃, p₄, p₅] ++ [m₀]).map
            (fun p => p.map (fun row => row.map (fun x => x / 255)))),
          m₁.map (fun row => row.map (fun x => if 0 < x then (1 : Int) else 0))⟩ := by
      simp [preprocess]
    refine ⟨_, hpre, ?_, ?_, ?_, rfl⟩
    · simp [normalize, band_means, band_stds, zip3]
    · simp only [normalize, band_means, band_stds]
      simp [zip3, chanT, List.map_map, Function.comp_def]
    · simp [chanT]
  · intro s' hlen
    obtain ⟨m, hm⟩ := List.length_eq_one.mp hlen
    simp [preprocess, hm]

theorem preprocess_seven_channels_witness :
    (∃ out, preprocess ⟨[[[255]], [[255]], [[255]], [[255]], [[255]], [[255]]],
        [[[1]], [[0]]]⟩ = some out
      ∧ out.image.length = 7
      ∧ out.image =
          [chanT 0.52253931 0.35221376 [[255]], chanT 0.52253931 0.35221376 [[255]],
           chanT 0.52253931 0.35221376 [[255]], chanT 0.61221701 0.37364622 [[255]],
           chanT 0.61221701 0.37364622 [[255]], chanT 0.61221701 0.37364622 [[255]],
           chanT 0 1 [[1]]]
      ∧ chanT 0 1 [[1]] = List.map (fun row => row.map (fun x => x / 255)) [[1]]
      ∧ out.mask = List.map (fun row => row.map (fun x : ℚ => if 0 < x then (1 : Int) else 0)) [[0]])
    ∧ (∀ s' : QSample, s'.mask.length = 1 → preprocess s' = none) :=
  preprocess_seven_channels [[255]] [[255]] [[255]] [[255]] [[255]] [[255]]
    [[1]] [[0]] [] _ rfl

end ETCI2021
